import Mathlib

/-!
Verification development for the `bt` Go client library (package `bt`,
file `client.go`): a client for the BT ("宝塔") server-management panel.

The development shallowly embeds the request pipeline of `client.go`:

* `MD5` — the token hash (Go `crypto/md5` + `hex.EncodeToString`),
  implemented in full over byte lists (bytes are `Nat` values `< 256`);
* `btAPI` — the request executor: form assembly (signing fields merged
  with caller parameters, Go map-write semantics), the cookie jar,
  outcome classification, cookie capture;
* the operation layer functions the claims mention (`Raw`, `GetNetWork`,
  `DeleteSite`, `GetTaskCount`, `GetLimitNet`).

The transport (Go `http.Client.PostForm`) is a parameter: a function from
the assembled request to either a transport error or a `Response`.
Wall-clock time (`time.Now().Unix()`) is likewise an explicit parameter.

The typed result structs (`NetWork`, `RespMSG`, `RespLimitNet`,
`ReqDeleteSite`) live in a repository file that is not among the
sources under review, so their shapes are modelled from the spec where
needed; JSON decoding (Go `jsoniter`, standard-library compatible) is
modelled by an executable JSON parser over bytes.
-/

namespace BT

/-! ## Bytes and hex encoding -/

/-- Truncation to a 32-bit word, as Go `uint32` arithmetic does. -/
def w32 (n : Nat) : Nat := n % 4294967296

/-- Left-rotation of a 32-bit word by `n` bits (`bits.RotateLeft32`). -/
def rotl32 (x n : Nat) : Nat :=
  w32 ((x <<< n) ||| (x >>> (32 - n)))

/-- Bitwise complement within 32 bits. -/
def not32 (x : Nat) : Nat := x ^^^ 4294967295

/-- Lowercase hexadecimal digit for a value below 16
(Go `encoding/hex` uses the lowercase alphabet). -/
def hexDigit (n : Nat) : Char :=
  if n < 10 then Char.ofNat (48 + n) else Char.ofNat (87 + n)

/-- Two lowercase hex characters for one byte, high nibble first. -/
def byteToHex (b : Nat) : List Char :=
  [hexDigit (b / 16 % 16), hexDigit (b % 16)]

/-- Go `hex.EncodeToString`: lowercase hex of a byte sequence. -/
def bytesToHex (bs : List Nat) : String :=
  String.mk ((bs.map byteToHex).flatten)

/-- UTF-8 encoding of one character, as Go string-to-byte conversion. -/
def utf8Bytes (c : Char) : List Nat :=
  let n := c.toNat
  if n < 128 then [n]
  else if n < 2048 then [192 + n / 64, 128 + n % 64]
  else if n < 65536 then [224 + n / 4096, 128 + n / 64 % 64, 128 + n % 64]
  else [240 + n / 262144, 128 + n / 4096 % 64, 128 + n / 64 % 64, 128 + n % 64]

/-- Go `[]byte(s)`: the UTF-8 bytes of a string. -/
def strBytes (s : String) : List Nat :=
  (s.data.map utf8Bytes).flatten

/-- Go `string(bs)` for byte slices; the development only applies it to
ASCII data, where byte-for-byte `Char.ofNat` agrees with UTF-8 decoding. -/
def stringOfBytes (bs : List Nat) : String :=
  String.mk (bs.map Char.ofNat)

/-! ## MD5 (RFC 1321, as Go `crypto/md5`) -/

/-- The 64 per-round sine-derived constants of MD5. -/
def md5K : List Nat :=
  [0xd76aa478, 0xe8c7b756, 0x242070db, 0xc1bdceee,
   0xf57c0faf, 0x4787c62a, 0xa8304613, 0xfd469501,
   0x698098d8, 0x8b44f7af, 0xffff5bb1, 0x895cd7be,
   0x6b901122, 0xfd987193, 0xa679438e, 0x49b40821,
   0xf61e2562, 0xc040b340, 0x265e5a51, 0xe9b6c7aa,
   0xd62f105d, 0x02441453, 0xd8a1e681, 0xe7d3fbc8,
   0x21e1cde6, 0xc33707d6, 0xf4d50d87, 0x455a14ed,
   0xa9e3e905, 0xfcefa3f8, 0x676f02d9, 0x8d2a4c8a,
   0xfffa3942, 0x8771f681, 0x6d9d6122, 0xfde5380c,
   0xa4beea44, 0x4bdecfa9, 0xf6bb4b60, 0xbebfbc70,
   0x289b7ec6, 0xeaa127fa, 0xd4ef3085, 0x04881d05,
   0xd9d4d039, 0xe6db99e5, 0x1fa27cf8, 0xc4ac5665,
   0xf4292244, 0x432aff97, 0xab9423a7, 0xfc93a039,
   0x655b59c3, 0x8f0ccc92, 0xffeff47d, 0x85845dd1,
   0x6fa87e4f, 0xfe2ce6e0, 0xa3014314, 0x4e0811a1,
   0xf7537e82, 0xbd3af235, 0x2ad7d2bb, 0xeb86d391]

/-- The 64 per-round left-rotation amounts of MD5. -/
def md5S : List Nat :=
  [7, 12, 17, 22, 7, 12, 17, 22, 7, 12, 17, 22, 7, 12, 17, 22,
   5, 9, 14, 20, 5, 9, 14, 20, 5, 9, 14, 20, 5, 9, 14, 20,
   4, 11, 16, 23, 4, 11, 16, 23, 4, 11, 16, 23, 4, 11, 16, 23,
   6, 10, 15, 21, 6, 10, 15, 21, 6, 10, 15, 21, 6, 10, 15, 21]

/-- Byte `i` of a byte list, zero past the end. -/
def byteAt (l : List Nat) (i : Nat) : Nat := l.getD i 0

/-- Little-endian 32-bit word `g` of a 64-byte chunk. -/
def chunkWord (chunk : List Nat) (g : Nat) : Nat :=
  byteAt chunk (4 * g) + 256 * byteAt chunk (4 * g + 1) +
    65536 * byteAt chunk (4 * g + 2) + 16777216 * byteAt chunk (4 * g + 3)

/-- One of the 64 MD5 round operations on the state `(a, b, c, d)`. -/
def md5Round (chunk : List Nat) (st : Nat × Nat × Nat × Nat) (i : Nat) :
    Nat × Nat × Nat × Nat :=
  let a := st.1
  let b := st.2.1
  let c := st.2.2.1
  let d := st.2.2.2
  let fg : Nat × Nat :=
    if i < 16 then ((b &&& c) ||| (not32 b &&& d), i)
    else if i < 32 then ((d &&& b) ||| (not32 d &&& c), (5 * i + 1) % 16)
    else if i < 48 then (b ^^^ c ^^^ d, (3 * i + 5) % 16)
    else (c ^^^ (b ||| not32 d), (7 * i) % 16)
  let f := w32 (fg.1 + a + md5K.getD i 0 + chunkWord chunk fg.2)
  (d, w32 (b + rotl32 f (md5S.getD i 0)), b, c)

/-- MD5 initial state. -/
def md5Init : Nat × Nat × Nat × Nat :=
  (0x67452301, 0xefcdab89, 0x98badcfe, 0x10325476)

/-- Process one 64-byte chunk: 64 rounds, then add into the state. -/
def md5ProcessChunk (st : Nat × Nat × Nat × Nat) (chunk : List Nat) :
    Nat × Nat × Nat × Nat :=
  let r := (List.range 64).foldl (md5Round chunk) st
  (w32 (st.1 + r.1), w32 (st.2.1 + r.2.1),
   w32 (st.2.2.1 + r.2.2.1), w32 (st.2.2.2 + r.2.2.2))

/-- MD5 padding: a 0x80 byte, zeros to 56 mod 64, then the original
bit length as a little-endian 64-bit value. -/
def md5Pad (msg : List Nat) : List Nat :=
  msg ++ [128] ++ List.replicate ((119 - msg.length % 64) % 64) 0 ++
    (List.range 8).map (fun j => ((8 * msg.length % 18446744073709551616) >>> (8 * j)) % 256)

/-- Split a byte list into consecutive 64-byte chunks (fuel-structural). -/
def chunks64Aux : Nat → List Nat → List (List Nat)
  | 0, _ => []
  | _, [] => []
  | fuel + 1, l => l.take 64 :: chunks64Aux fuel (l.drop 64)

/-- Split a byte list into consecutive 64-byte chunks. -/
def chunks64 (l : List Nat) : List (List Nat) := chunks64Aux l.length l

/-- Little-endian 4-byte serialization of a 32-bit word. -/
def wordLE (x : Nat) : List Nat :=
  [x % 256, x >>> 8 % 256, x >>> 16 % 256, x >>> 24 % 256]

/-- The 16-byte MD5 digest of a byte sequence. -/
def md5Bytes (msg : List Nat) : List Nat :=
  let r := (chunks64 (md5Pad msg)).foldl md5ProcessChunk md5Init
  wordLE r.1 ++ wordLE r.2.1 ++ wordLE r.2.2.1 ++ wordLE r.2.2.2

/-- Go helper `MD5` of `client.go`: the 32-character lowercase
hexadecimal MD5 digest of a string. -/
def MD5 (s : String) : String :=
  bytesToHex (md5Bytes (strBytes s))

/-! ## Form values (Go `url.Values`, a map from string to string list)

A `url.Values` is a Go map; it is modelled as an association list whose
writes (`body[k] = v`) replace the value of an existing key in place and
append an absent key. -/

/-- The form body type: string keys to string-list values. -/
abbrev Form := List (String × List String)

/-- Go map write `m[k] = v`: replace the entry in place if `k` is
present, append a new entry otherwise. -/
def setVal : Form → String → List String → Form
  | [], k, v => [(k, v)]
  | p :: t, k, v => if p.1 = k then (k, v) :: t else p :: setVal t k v

/-- Go map read `m[k]` (with presence): the value stored at key `k`. -/
def getVal : Form → String → Option (List String)
  | [], _ => none
  | p :: t, k => if p.1 = k then some p.2 else getVal t k

/-- Write every entry of `data` into `m`, in order (the Go
`for k, v := range data` loop; iteration order is immaterial because a
Go map holds each key once). -/
def mergeData (m : Form) (data : Form) : Form :=
  data.foldl (fun acc p => setVal acc p.1 p.2) m

/-! ## Data model: client, request, response, transport -/

/-- An HTTP cookie, reduced to the fields the client logic reads. -/
structure Cookie where
  name : String
  value : String
deriving DecidableEq, Repr

/-- The `Client` struct of `client.go`: the panel address, the API key,
and the mutable captured cookie set.  The timeout only configures the
transport and plays no role in the embedded logic. -/
structure Client where
  BTAddress : String
  BTKey : String
  cookies : List Cookie
deriving DecidableEq, Repr

/-- `NewClient`: a fresh client holds no cookies. -/
def NewClient (address : String) (key : String) : Client :=
  { BTAddress := address, BTKey := key, cookies := [] }

/-- The outbound POST as `btAPI` assembles it: the target URL, the form
body, and the cookies placed in the request's cookie jar. -/
structure Request where
  url : String
  form : Form
  jarCookies : List Cookie
deriving DecidableEq, Repr

/-- The result of reading a response body (`ioutil.ReadAll`): either the
body bytes or a read error. -/
inductive BodyRead where
  | ok (bytes : List Nat)
  | err (msg : String)
deriving DecidableEq, Repr

/-- An HTTP response as `btAPI` consumes it: the numeric status code,
the status text (Go `resp.Status`), the response cookies
(`resp.Cookies()`), and the body read outcome. -/
structure Response where
  statusCode : Nat
  status : String
  cookies : List Cookie
  bodyRead : BodyRead
deriving DecidableEq, Repr

/-- The transport (Go `http.Client.PostForm`): maps the assembled
request to a transport error or a response. -/
def Transport : Type := Request → Except String Response

/-- The signing token of `client.go` line 44:
`MD5(nowTime + MD5(c.BTKey))`. -/
def requestToken (nowTime : Int) (key : String) : String :=
  MD5 (toString nowTime ++ MD5 key)

/-- The initial form body holding the two signing fields
(`request_token`, `request_time`). -/
def signingForm (key : String) (nowTime : Int) : Form :=
  [("request_token", [requestToken nowTime key]),
   ("request_time", [toString nowTime])]

/-- The full form body: the signing fields, then every caller entry
written with Go map semantics (`body[k] = v`), so a caller entry under a
reserved key replaces the signing value. -/
def buildBody (key : String) (nowTime : Int) (data : Form) : Form :=
  mergeData (signingForm key nowTime) data

/-- The request `btAPI` issues: URL `BTAddress ++ endpoint`, the merged
form body, and the held cookies in the jar when the held set is
non-empty (`if len(c.cookies) != 0`). -/
def btAPIRequest (c : Client) (data : Form) (endpoint : String) (nowTime : Int) :
    Request :=
  { url := c.BTAddress ++ endpoint
  , form := buildBody c.BTKey nowTime data
  , jarCookies := if c.cookies ≠ [] then c.cookies else [] }

/-- The request executor `btAPI` of `client.go` (lines 38-77).
Returns the Go pair `([]byte, error)` as an `Except`, together with the
client as left after the call (the Go method mutates `c.cookies`):

* transport failure: the error is returned, the client is untouched;
* status `>= 400`: an error carrying `resp.Status` is returned before
  the cookie save, so the client is untouched and the body discarded;
* status `< 400`: the held cookies are replaced by `resp.Cookies()`,
  then the body is read; a read failure is returned as an error (the
  cookies stay replaced), otherwise the body bytes are returned. -/
def btAPI (c : Client) (tr : Transport) (nowTime : Int) (data : Form)
    (endpoint : String) : Except String (List Nat) × Client :=
  let req := btAPIRequest c data endpoint nowTime
  match tr req with
  | .error e => (.error e, c)
  | .ok resp =>
    if resp.statusCode ≥ 400 then
      (.error resp.status, c)
    else
      let c1 := { c with cookies := resp.cookies }
      match resp.bodyRead with
      | .err e => (.error e, c1)
      | .ok bs => (.ok bs, c1)

/-- Deprecated passthrough `Raw` of `client.go`: calls `btAPI` with
caller-supplied data and endpoint unchanged. -/
def Raw (c : Client) (tr : Transport) (nowTime : Int) (data : Form)
    (endpoint : String) : Except String (List Nat) × Client :=
  btAPI c tr nowTime data endpoint

/-! ## JSON values and parsing

The repository decodes response bodies with a standard-library
compatible JSON decoder (`jsoniter.ConfigCompatibleWithStandardLibrary`).
That decoder is outside the sources under review; it is modelled by an
executable parser over response bytes.  Numbers are modelled as
integers, which covers the modelled result shapes; the parser works on
ASCII bytes, which covers every body appearing in the development. -/

/-- A JSON value. -/
inductive Json where
  | null
  | bool (b : Bool)
  | num (n : Int)
  | str (s : String)
  | arr (xs : List Json)
  | obj (fields : List (String × Json))
deriving Repr

/-- JSON whitespace bytes: space, tab, line feed, carriage return. -/
def isWsByte (c : Nat) : Bool := c = 32 || c = 9 || c = 10 || c = 13

/-- Drop leading JSON whitespace. -/
def skipWs : List Nat → List Nat
  | c :: rest => if isWsByte c then skipWs rest else c :: rest
  | [] => []

/-- ASCII decimal digit bytes. -/
def isDigitByte (c : Nat) : Bool := 48 ≤ c && c ≤ 57

/-- Accumulate one decimal digit. -/
def digitStep (acc : Nat) (c : Nat) : Nat := acc * 10 + (c - 48)

/-- Consume a maximal run of digit bytes, folding them into `acc`. -/
def parseDigitsAcc : List Nat → Nat → Nat × List Nat
  | c :: rest, acc =>
    if isDigitByte c then parseDigitsAcc rest (digitStep acc c)
    else (acc, c :: rest)
  | [], acc => (acc, [])

/-- Parse an integer JSON number: an optional minus sign and a nonempty
digit run. -/
def parseNumber : List Nat → Option (Int × List Nat)
  | [] => none
  | c :: rest =>
    if c = 45 then
      match rest with
      | d :: _ =>
        if isDigitByte d then
          let p := parseDigitsAcc rest 0
          some (-(p.1 : Int), p.2)
        else none
      | [] => none
    else if isDigitByte c then
      let p := parseDigitsAcc (c :: rest) 0
      some ((p.1 : Int), p.2)
    else none

/-- Value of a hexadecimal digit byte, if it is one. -/
def hexNibble (c : Nat) : Option Nat :=
  if 48 ≤ c ∧ c ≤ 57 then some (c - 48)
  else if 97 ≤ c ∧ c ≤ 102 then some (c - 87)
  else if 65 ≤ c ∧ c ≤ 70 then some (c - 55)
  else none

/-- Parse the characters of a JSON string after the opening quote, up
to and including the closing quote, handling the escape sequences. -/
def parseStrChars : List Nat → Option (List Char × List Nat)
  | 34 :: rest => some ([], rest)
  | 92 :: 34 :: rest =>
    (parseStrChars rest).map (fun p => (Char.ofNat 34 :: p.1, p.2))
  | 92 :: 92 :: rest =>
    (parseStrChars rest).map (fun p => (Char.ofNat 92 :: p.1, p.2))
  | 92 :: 47 :: rest =>
    (parseStrChars rest).map (fun p => (Char.ofNat 47 :: p.1, p.2))
  | 92 :: 98 :: rest =>
    (parseStrChars rest).map (fun p => (Char.ofNat 8 :: p.1, p.2))
  | 92 :: 102 :: rest =>
    (parseStrChars rest).map (fun p => (Char.ofNat 12 :: p.1, p.2))
  | 92 :: 110 :: rest =>
    (parseStrChars rest).map (fun p => (Char.ofNat 10 :: p.1, p.2))
  | 92 :: 114 :: rest =>
    (parseStrChars rest).map (fun p => (Char.ofNat 13 :: p.1, p.2))
  | 92 :: 116 :: rest =>
    (parseStrChars rest).map (fun p => (Char.ofNat 9 :: p.1, p.2))
  | 92 :: 117 :: h1 :: h2 :: h3 :: h4 :: rest =>
    match hexNibble h1, hexNibble h2, hexNibble h3, hexNibble h4 with
    | some a, some b, some c, some d =>
      (parseStrChars rest).map
        (fun p => (Char.ofNat (4096 * a + 256 * b + 16 * c + d) :: p.1, p.2))
    | _, _, _, _ => none
  | 92 :: _ => none
  | c :: rest =>
    if c < 32 then none
    else (parseStrChars rest).map (fun p => (Char.ofNat c :: p.1, p.2))
  | [] => none

mutual

/-- Parse one JSON value (fuel bounds the nesting recursion). -/
def parseVal : Nat → List Nat → Option (Json × List Nat)
  | 0, _ => none
  | fuel + 1, input =>
    match skipWs input with
    | 110 :: 117 :: 108 :: 108 :: rest => some (.null, rest)
    | 116 :: 114 :: 117 :: 101 :: rest => some (.bool true, rest)
    | 102 :: 97 :: 108 :: 115 :: 101 :: rest => some (.bool false, rest)
    | 34 :: rest =>
      match parseStrChars rest with
      | some p => some (.str (String.mk p.1), p.2)
      | none => none
    | 123 :: rest =>
      match skipWs rest with
      | 125 :: r => some (.obj [], r)
      | r2 =>
        match parseMembers fuel r2 with
        | some p => some (.obj p.1, p.2)
        | none => none
    | 91 :: rest =>
      match skipWs rest with
      | 93 :: r => some (.arr [], r)
      | r2 =>
        match parseItems fuel r2 with
        | some p => some (.arr p.1, p.2)
        | none => none
    | l =>
      match parseNumber l with
      | some p => some (.num p.1, p.2)
      | none => none

/-- Parse the members of a JSON object after the opening brace, up to
and including the closing brace. -/
def parseMembers : Nat → List Nat → Option (List (String × Json) × List Nat)
  | 0, _ => none
  | fuel + 1, input =>
    match skipWs input with
    | 34 :: rest =>
      match parseStrChars rest with
      | some kp =>
        match skipWs kp.2 with
        | 58 :: r2 =>
          match parseVal fuel r2 with
          | some vp =>
            match skipWs vp.2 with
            | 44 :: r4 =>
              match parseMembers fuel r4 with
              | some fp => some ((String.mk kp.1, vp.1) :: fp.1, fp.2)
              | none => none
            | 125 :: r4 => some ([(String.mk kp.1, vp.1)], r4)
            | _ => none
          | none => none
        | _ => none
      | none => none
    | _ => none

/-- Parse the items of a JSON array after the opening bracket, up to
and including the closing bracket. -/
def parseItems : Nat → List Nat → Option (List Json × List Nat)
  | 0, _ => none
  | fuel + 1, input =>
    match parseVal fuel input with
    | some vp =>
      match skipWs vp.2 with
      | 44 :: r2 =>
        match parseItems fuel r2 with
        | some xp => some (vp.1 :: xp.1, xp.2)
        | none => none
      | 93 :: r2 => some ([vp.1], r2)
      | _ => none
    | none => none

end

/-- Parse a whole body as one JSON value with nothing but whitespace
after it.  The fuel `length + 8` exceeds any possible nesting depth
(each nesting level consumes at least one byte). -/
def parseJson (bs : List Nat) : Option Json :=
  match parseVal (bs.length + 8) bs with
  | some p => if skipWs p.2 = [] then some p.1 else none
  | none => none

/-! ## Typed results and decoders

The result struct definitions live in a repository file outside the
sources under review; their shapes below are modelled from the spec. -/

/-- The error message the modelled decoder reports for a body that is
not well-formed JSON (for the empty body, Go reports the same
condition as an unexpected end of input). -/
def jsonSyntaxErr : String := "unexpected end of JSON input"

/-- Field lookup in a decoded object.  Go keeps the last of duplicate
keys, hence the search from the end. -/
def lookupField (fs : List (String × Json)) (k : String) : Option Json :=
  ((fs.reverse).find? (fun p => p.1 = k)).map (fun p => p.2)

/-- Decode an integer field: absent means the zero value, a non-number
value is a type error, as in Go struct unmarshalling. -/
def intField (fs : List (String × Json)) (k : String) : Except String Int :=
  match lookupField fs k with
  | none => .ok 0
  | some (.num i) => .ok i
  | some _ => .error ("json: cannot unmarshal value into field " ++ k)

/-- Decode a boolean field, Go struct unmarshalling conventions. -/
def boolField (fs : List (String × Json)) (k : String) : Except String Bool :=
  match lookupField fs k with
  | none => .ok false
  | some (.bool b) => .ok b
  | some _ => .error ("json: cannot unmarshal value into field " ++ k)

/-- Decode a string field, Go struct unmarshalling conventions. -/
def strField (fs : List (String × Json)) (k : String) : Except String String :=
  match lookupField fs k with
  | none => .ok ""
  | some (.str s) => .ok s
  | some _ => .error ("json: cannot unmarshal value into field " ++ k)

/-- Modelled from the spec: the `NetWork` result struct (defined in a
repository file outside the sources under review) — the real-time
status shape of `GetNetWork` ("CPU, memory, network, load" metrics),
modelled as five integer metric fields. -/
structure NetWork where
  cpu : Int
  mem : Int
  up : Int
  down : Int
  load : Int
deriving DecidableEq, Repr

/-- The Go zero value `NetWork{}`. -/
def zeroNetWork : NetWork := ⟨0, 0, 0, 0, 0⟩

/-- Modelled from the spec: the `RespMSG` result struct (defined in a
repository file outside the sources under review) — the generic
message/status shape returned by mutating operations. -/
structure RespMSG where
  status : Bool
  msg : String
deriving DecidableEq, Repr

/-- The Go zero value `RespMSG{}`. -/
def zeroRespMSG : RespMSG := ⟨false, ""⟩

/-- Modelled from the spec: the `RespLimitNet` result struct (defined
in a repository file outside the sources under review) — the traffic
limit configuration of `GetLimitNet`, modelled as three integer
fields. -/
structure RespLimitNet where
  perserver : Int
  perip : Int
  limitRate : Int
deriving DecidableEq, Repr

/-- The Go zero value `RespLimitNet{}`. -/
def zeroRespLimitNet : RespLimitNet := ⟨0, 0, 0⟩

/-- Modelled from the spec: the `ReqDeleteSite` parameter struct
(defined in a repository file outside the sources under review) — the
inputs of `DeleteSite`: site id, site name, and the three optional
deletion scopes. -/
structure ReqDeleteSite where
  ID : Int
  WebName : String
  FTP : Bool
  Database : Bool
  Path : Bool
deriving DecidableEq, Repr

/-- Unmarshal a body into `NetWork`: the body must be one JSON object;
each known field must be a number if present; unknown fields are
ignored, absent fields keep the zero value. -/
def decodeNetWork (bs : List Nat) : Except String NetWork :=
  match parseJson bs with
  | none => .error jsonSyntaxErr
  | some (.obj fs) => do
    let cpu ← intField fs "cpu"
    let mem ← intField fs "mem"
    let up ← intField fs "up"
    let down ← intField fs "down"
    let load ← intField fs "load"
    .ok ⟨cpu, mem, up, down, load⟩
  | some _ => .error "json: cannot unmarshal value into NetWork"

/-- Unmarshal a body into `RespMSG`. -/
def decodeRespMSG (bs : List Nat) : Except String RespMSG :=
  match parseJson bs with
  | none => .error jsonSyntaxErr
  | some (.obj fs) => do
    let status ← boolField fs "status"
    let msg ← strField fs "msg"
    .ok ⟨status, msg⟩
  | some _ => .error "json: cannot unmarshal value into RespMSG"

/-- Unmarshal a body into `RespLimitNet`. -/
def decodeRespLimitNet (bs : List Nat) : Except String RespLimitNet :=
  match parseJson bs with
  | none => .error jsonSyntaxErr
  | some (.obj fs) => do
    let perserver ← intField fs "perserver"
    let perip ← intField fs "perip"
    let limitRate ← intField fs "limit_rate"
    .ok ⟨perserver, perip, limitRate⟩
  | some _ => .error "json: cannot unmarshal value into RespLimitNet"

/-! ## A JSON encoder for `NetWork` bodies

Used to state "a well-formed JSON body of the expected shape": the
encoder produces the canonical body for a given `NetWork` value. -/

/-- Decimal digit bytes of `n`, most significant first
(fuel-structural; `natToBytes` supplies sufficient fuel). -/
def natChars : Nat → Nat → List Nat
  | 0, _ => []
  | f + 1, n => if n < 10 then [48 + n] else natChars f (n / 10) ++ [48 + n % 10]

/-- Decimal digit bytes of a natural number. -/
def natToBytes (n : Nat) : List Nat := natChars (n + 1) n

/-- Decimal byte rendering of an integer, minus sign included. -/
def intToBytes (i : Int) : List Nat :=
  if i < 0 then 45 :: natToBytes i.natAbs else natToBytes i.toNat

/-- The canonical JSON body for a `NetWork` value, as bytes:
an object with the five metric fields in declaration order. -/
def encodeNetWork (w : NetWork) : List Nat :=
  [123, 34, 99, 112, 117, 34, 58] ++ intToBytes w.cpu ++
    [44, 34, 109, 101, 109, 34, 58] ++ intToBytes w.mem ++
    [44, 34, 117, 112, 34, 58] ++ intToBytes w.up ++
    [44, 34, 100, 111, 119, 110, 34, 58] ++ intToBytes w.down ++
    [44, 34, 108, 111, 97, 100, 34, 58] ++ intToBytes w.load ++ [125]

/-- The JSON value the canonical `NetWork` body denotes. -/
def netWorkJson (w : NetWork) : Json :=
  .obj [("cpu", .num w.cpu), ("mem", .num w.mem), ("up", .num w.up),
        ("down", .num w.down), ("load", .num w.load)]

/-! ## Operation layer

Each Go operation is a method mutating the receiver's cookie state and
returning a `(result, error)` pair; the embedding returns the pair
(with the error as an `Option String`) together with the client left
after the call. -/

/-- Go `strconv.Atoi` (base 10, 64-bit `int`): optional sign, at least
one digit, nothing else, and the value must fit in an `int64`. -/
def goAtoi (bs : List Nat) : Option Int :=
  let p : Int × List Nat :=
    match bs with
    | 43 :: r => (1, r)
    | 45 :: r => (-1, r)
    | r => (1, r)
  if p.2 = [] ∨ ¬ p.2.all (fun c => isDigitByte c) then none
  else
    let v : Nat := p.2.foldl digitStep 0
    let i : Int := p.1 * v
    if -(2 ^ 63) ≤ i ∧ i < 2 ^ 63 then some i else none

/-- `GetNetWork` (`client.go` lines 86-96): structured decode; an
executor error is returned with the zero value, then a decode error is
returned with the zero value, otherwise the decoded result. -/
def GetNetWork (c : Client) (tr : Transport) (nowTime : Int) :
    (NetWork × Option String) × Client :=
  match btAPI c tr nowTime [] "/system?action=GetNetWork" with
  | (.error e, c1) => ((zeroNetWork, some e), c1)
  | (.ok bs, c1) =>
    match decodeNetWork bs with
    | .error e => ((zeroNetWork, some e), c1)
    | .ok dec => ((dec, none), c1)

/-- The form data `DeleteSite` builds from its parameters: `id` and
`webname` always, each deletion scope only when its flag is set. -/
def deleteSiteData (params : ReqDeleteSite) : Form :=
  let d0 : Form := [("id", [toString params.ID]), ("webname", [params.WebName])]
  let d1 := if params.FTP then d0 ++ [("ftp", ["1"])] else d0
  let d2 := if params.Database then d1 ++ [("database", ["1"])] else d1
  if params.Path then d2 ++ [("path", ["1"])] else d2

/-- `DeleteSite` (`client.go` lines 223-243): best-effort decode; the
executor error is discarded (`resp, _ := c.btAPI(...)`), so on any
executor error the decoded bytes are the Go `nil` slice (empty), and
only the decode outcome decides the return. -/
def DeleteSite (c : Client) (tr : Transport) (nowTime : Int)
    (params : ReqDeleteSite) : (RespMSG × Option String) × Client :=
  match btAPI c tr nowTime (deleteSiteData params) "/site?action=DeleteSite" with
  | (r, c1) =>
    let respBytes : List Nat := match r with | .ok bs => bs | .error _ => []
    match decodeRespMSG respBytes with
    | .error e => ((zeroRespMSG, some e), c1)
    | .ok dec => ((dec, none), c1)

/-- `GetTaskCount` (`client.go` lines 125-135): any executor error
yields 0; a body that `strconv.Atoi` rejects yields 0; otherwise the
parsed integer.  The Go signature returns no error at all. -/
def GetTaskCount (c : Client) (tr : Transport) (nowTime : Int) :
    Int × Client :=
  match btAPI c tr nowTime [] "/ajax?action=GetTaskCount" with
  | (.error _, c1) => (0, c1)
  | (.ok bs, c1) =>
    match goAtoi bs with
    | none => (0, c1)
    | some n => (n, c1)

/-- `GetLimitNet` (`client.go` lines 551-564): on an executor error it
returns `errors.New(string(resp))` — and `resp` is the Go `nil` slice
whenever `btAPI` returns an error, so the constructed error message is
always the empty string; otherwise structured decode. -/
def GetLimitNet (c : Client) (tr : Transport) (nowTime : Int) (id : Int) :
    (RespLimitNet × Option String) × Client :=
  match btAPI c tr nowTime [("id", [toString id])] "/site?action=GetLimitNet" with
  | (.error _, c1) =>
    ((zeroRespLimitNet, some (stringOfBytes ([] : List Nat))), c1)
  | (.ok bs, c1) =>
    match decodeRespLimitNet bs with
    | .error e => ((zeroRespLimitNet, some e), c1)
    | .ok dec => ((dec, none), c1)

/-! ## Auxiliary definitions for the statements -/

/-- Membership in the lowercase hexadecimal alphabet. -/
def isHexChar (ch : Char) : Bool :=
  ("0123456789abcdef".data).contains ch

/-- Whether a byte list starts with a decimal digit byte. -/
def firstDigit : List Nat → Bool
  | c :: _ => isDigitByte c
  | [] => false

/-- Whether an executor outcome is a success. -/
def isOkB : Except String (List Nat) → Bool
  | .ok _ => true
  | .error _ => false

/-- The bytes of the JSON text rendering a successful `RespMSG`
(an object with a true status and the message text ok). -/
def bodyStatusOk : List Nat :=
  [123, 34, 115, 116, 97, 116, 117, 115, 34, 58, 116, 114, 117, 101,
   44, 34, 109, 115, 103, 34, 58, 34, 111, 107, 34, 125]

/-! ## Lemmas: form maps -/

theorem getVal_setVal (m : Form) (k k1 : String) (v : List String) :
    getVal (setVal m k1 v) k = if k = k1 then some v else getVal m k := by
  induction m with
  | nil =>
    by_cases h : k = k1
    · subst h; simp [setVal, getVal]
    · have hne : ¬ k1 = k := fun hc => h hc.symm
      simp [setVal, getVal, h, hne]
  | cons p t ih =>
    rcases p with ⟨p1, p2⟩
    by_cases h1 : p1 = k1
    · subst h1
      by_cases h2 : k = p1
      · subst h2; simp [setVal, getVal]
      · have hne : ¬ p1 = k := fun hc => h2 hc.symm
        simp [setVal, getVal, h2, hne]
    · simp only [setVal, if_neg h1]
      by_cases h3 : p1 = k
      · have h2 : ¬ k = k1 := fun hk => h1 (h3.trans hk)
        simp [getVal, h3, h2]
      · simp [getVal, h3, ih]

theorem getVal_mergeData_not_mem (data : Form) : ∀ (m : Form) (k : String),
    (∀ p ∈ data, p.1 ≠ k) → getVal (mergeData m data) k = getVal m k := by
  induction data with
  | nil => intro m k _; rfl
  | cons q t ih =>
    intro m k h
    have step : mergeData m (q :: t) = mergeData (setVal m q.1 q.2) t := rfl
    rw [step, ih (setVal m q.1 q.2) k
      (fun p hp => h p (List.mem_cons_of_mem q hp)), getVal_setVal]
    have hne : ¬ k = q.1 := fun hk => (h q (List.mem_cons_self q t)) hk.symm
    rw [if_neg hne]

theorem getVal_mergeData_mem (data : Form) : ∀ (m : Form) (k : String)
    (v : List String), (data.map Prod.fst).Nodup → (k, v) ∈ data →
    getVal (mergeData m data) k = some v := by
  induction data with
  | nil => intro m k v _ hm; cases hm
  | cons q t ih =>
    intro m k v hnd hm
    rw [List.map_cons, List.nodup_cons] at hnd
    rcases List.mem_cons.mp hm with hq | ht
    · subst hq
      have hnone : ∀ p ∈ t, p.1 ≠ k := by
        intro p hp hpk
        exact hnd.1 (List.mem_map.mpr ⟨p, hp, hpk⟩)
      have step : mergeData m ((k, v) :: t) = mergeData (setVal m k v) t := rfl
      rw [step, getVal_mergeData_not_mem t (setVal m k v) k hnone,
        getVal_setVal, if_pos rfl]
    · exact ih (setVal m q.1 q.2) k v hnd.2 ht

theorem getVal_signingForm_token (key : String) (nowTime : Int) :
    getVal (signingForm key nowTime) "request_token"
      = some [requestToken nowTime key] := by
  simp [signingForm, getVal]

theorem getVal_signingForm_time (key : String) (nowTime : Int) :
    getVal (signingForm key nowTime) "request_time"
      = some [toString nowTime] := by
  simp [signingForm, getVal]

/-! ## Lemmas: shape of the MD5 digest -/

theorem md5Bytes_length (msg : List Nat) : (md5Bytes msg).length = 16 := by
  simp [md5Bytes, wordLE]

theorem bytesToHex_length (bs : List Nat) :
    (bytesToHex bs).length = 2 * bs.length := by
  induction bs with
  | nil => rfl
  | cons b t ih =>
    simp only [bytesToHex, String.length, List.map_cons, List.flatten_cons,
      List.length_append, byteToHex, List.length_cons, List.length_nil,
      List.length_map] at ih ⊢
    omega

theorem hexDigit_isHex : ∀ m, m < 16 → isHexChar (hexDigit m) = true := by
  decide

theorem bytesToHex_all_hex (bs : List Nat) :
    ((bytesToHex bs).data).all isHexChar = true := by
  induction bs with
  | nil => rfl
  | cons b t ih =>
    have h1 : isHexChar (hexDigit (b / 16 % 16)) = true :=
      hexDigit_isHex _ (Nat.mod_lt _ (by norm_num))
    have h2 : isHexChar (hexDigit (b % 16)) = true :=
      hexDigit_isHex _ (Nat.mod_lt _ (by norm_num))
    simp only [bytesToHex, List.map_cons, List.flatten_cons, List.all_append,
      byteToHex, List.all_cons, List.all_nil] at ih ⊢
    simp [h1, h2, ih]

theorem MD5_length (s : String) : (MD5 s).length = 32 := by
  rw [MD5, bytesToHex_length, md5Bytes_length]

theorem MD5_all_hex (s : String) : ((MD5 s).data).all isHexChar = true :=
  bytesToHex_all_hex _

/-! ## Lemmas: decimal printing and number parsing -/

theorem natChars_digits : ∀ (f n : Nat), ∀ d ∈ natChars f n, 48 ≤ d ∧ d ≤ 57 := by
  intro f
  induction f with
  | zero => intro n d hd; cases hd
  | succ f ih =>
    intro n d hd
    by_cases h : n < 10
    · simp only [natChars, if_pos h, List.mem_singleton] at hd
      omega
    · simp only [natChars, if_neg h, List.mem_append, List.mem_singleton] at hd
      rcases hd with hd | hd
      · exact ih _ d hd
      · have : d = 48 + n % 10 := hd
        have := Nat.mod_lt n (show 0 < 10 by norm_num)
        omega

theorem natChars_ne_nil (f n : Nat) (hf : 0 < f) : natChars f n ≠ [] := by
  cases f with
  | zero => omega
  | succ f => by_cases h : n < 10 <;> simp [natChars, h]

theorem natChars_foldl : ∀ (f n acc : Nat), 0 < f → n < 10 ^ f →
    (natChars f n).foldl digitStep acc
      = acc * 10 ^ (natChars f n).length + n := by
  intro f
  induction f with
  | zero => intro n acc hf; exact absurd hf (by omega)
  | succ f ih =>
    intro n acc _ hn
    by_cases h : n < 10
    · simp only [natChars, if_pos h, List.foldl_cons, List.foldl_nil,
        List.length_cons, List.length_nil, digitStep]
      have : 48 + n - 48 = n := by omega
      rw [this, pow_one]
    · have hf1 : 0 < f := by
        rcases Nat.eq_zero_or_pos f with h0 | h0
        · subst h0; rw [pow_one] at hn; omega
        · exact h0
      have hn1 : n / 10 < 10 ^ f := by
        rw [Nat.div_lt_iff_lt_mul (by norm_num)]
        calc n < 10 ^ (f + 1) := hn
          _ = 10 ^ f * 10 := by ring
      simp only [natChars, if_neg h, List.foldl_append, List.length_append,
        List.foldl_cons, List.foldl_nil, List.length_cons, List.length_nil]
      rw [ih (n / 10) acc hf1 hn1]
      simp only [digitStep]
      have h48 : 48 + n % 10 - 48 = n % 10 := by omega
      rw [h48, pow_succ, ← Nat.mul_assoc]
      have hmod := Nat.div_add_mod n 10
      generalize acc * 10 ^ (natChars f (n / 10)).length = X
      omega

theorem parseDigitsAcc_append : ∀ (ds rest : List Nat) (acc : Nat),
    (∀ d ∈ ds, 48 ≤ d ∧ d ≤ 57) → firstDigit rest = false →
    parseDigitsAcc (ds ++ rest) acc = (ds.foldl digitStep acc, rest) := by
  intro ds
  induction ds with
  | nil =>
    intro rest acc _ hrest
    cases rest with
    | nil => rfl
    | cons c t =>
      simp only [firstDigit] at hrest
      simp [parseDigitsAcc, hrest]
  | cons d ds ih =>
    intro rest acc hds hrest
    have hd := hds d (by simp)
    have hdig : isDigitByte d = true := by simp [isDigitByte]; omega
    simp only [List.cons_append, parseDigitsAcc, hdig, if_pos, List.foldl_cons]
    exact ih rest (digitStep acc d) (fun x hx => hds x (by simp [hx])) hrest

theorem parseNumber_natToBytes (n : Nat) (rest : List Nat)
    (hrest : firstDigit rest = false) :
    parseNumber (natToBytes n ++ rest) = some ((n : Int), rest) := by
  have hne := natChars_ne_nil (n + 1) n (by omega)
  have hn : n < 10 ^ (n + 1) :=
    lt_of_lt_of_le (Nat.lt_pow_self (by norm_num) n)
      (Nat.pow_le_pow_right (by norm_num) (by omega))
  have hfold := natChars_foldl (n + 1) n 0 (by omega) hn
  rcases hcs : natChars (n + 1) n with _ | ⟨c, cs⟩
  · exact absurd hcs hne
  · have hdigs : ∀ d ∈ c :: cs, 48 ≤ d ∧ d ≤ 57 := by
      rw [← hcs]; exact natChars_digits (n + 1) n
    have hc := hdigs c (by simp)
    have hc45 : ¬ c = 45 := by omega
    have hcd : isDigitByte c = true := by simp [isDigitByte]; omega
    rw [natToBytes, hcs, List.cons_append]
    simp only [parseNumber, if_neg hc45, hcd, if_true]
    rw [← List.cons_append,
      parseDigitsAcc_append (c :: cs) rest 0 hdigs hrest]
    rw [hcs] at hfold
    simp only [List.length_cons, Nat.zero_mul, Nat.zero_add] at hfold
    rw [hfold]

theorem parseNumber_intToBytes (i : Int) (rest : List Nat)
    (hrest : firstDigit rest = false) :
    parseNumber (intToBytes i ++ rest) = some (i, rest) := by
  by_cases hi : i < 0
  · have hpos : 0 < i.natAbs := by omega
    have hne := natChars_ne_nil (i.natAbs + 1) i.natAbs (by omega)
    have hn : i.natAbs < 10 ^ (i.natAbs + 1) :=
      lt_of_lt_of_le (Nat.lt_pow_self (by norm_num) i.natAbs)
        (Nat.pow_le_pow_right (by norm_num) (by omega))
    have hfold := natChars_foldl (i.natAbs + 1) i.natAbs 0 (by omega) hn
    rcases hcs : natChars (i.natAbs + 1) i.natAbs with _ | ⟨c, cs⟩
    · exact absurd hcs hne
    · have hdigs : ∀ d ∈ c :: cs, 48 ≤ d ∧ d ≤ 57 := by
        rw [← hcs]; exact natChars_digits (i.natAbs + 1) i.natAbs
      have hc := hdigs c (by simp)
      have hcd : isDigitByte c = true := by simp [isDigitByte]; omega
      simp only [intToBytes, if_pos hi, List.cons_append, natToBytes, hcs]
      simp only [parseNumber, if_pos rfl, List.cons_append, hcd, if_true]
      rw [← List.cons_append,
        parseDigitsAcc_append (c :: cs) rest 0 hdigs hrest]
      rw [hcs] at hfold
      simp only [List.length_cons, Nat.zero_mul, Nat.zero_add] at hfold
      rw [hfold]
      have hcast : -((i.natAbs : Nat) : Int) = i := by omega
      rw [hcast]
  · push_neg at hi
    have h45 : ¬ (intToBytes i ++ rest) = 45 :: (natToBytes i.natAbs ++ rest) ∨ True := Or.inr trivial
    simp only [intToBytes, if_neg (by omega : ¬ i < 0)]
    rw [parseNumber_natToBytes i.toNat rest hrest]
    simp [Int.toNat_of_nonneg hi]

theorem skipWs_cons_false (c : Nat) (t : List Nat) (h : isWsByte c = false) :
    skipWs (c :: t) = c :: t := by
  simp [skipWs, h]

theorem parseVal_number_head (f : Nat) (c : Nat) (t : List Nat)
    (hc : c = 45 ∨ (48 ≤ c ∧ c ≤ 57)) :
    parseVal (f + 1) (c :: t)
      = match parseNumber (c :: t) with
        | some p => some (.num p.1, p.2)
        | none => none := by
  have hws : isWsByte c = false := by simp [isWsByte]; omega
  simp only [parseVal, skipWs_cons_false c t hws]
  split
  all_goals try rfl
  all_goals (rename_i heq; injections; omega)

theorem intToBytes_head (i : Int) :
    ∃ c t, intToBytes i = c :: t ∧ (c = 45 ∨ (48 ≤ c ∧ c ≤ 57)) := by
  by_cases hi : i < 0
  · exact ⟨45, natToBytes i.natAbs, by simp [intToBytes, hi], Or.inl rfl⟩
  · have hne := natChars_ne_nil (i.toNat + 1) i.toNat (by omega)
    rcases hcs : natChars (i.toNat + 1) i.toNat with _ | ⟨c, cs⟩
    · exact absurd hcs hne
    · refine ⟨c, cs, ?_, Or.inr (natChars_digits _ _ c (by rw [hcs]; simp))⟩
      simp [intToBytes, hi, natToBytes, hcs]

theorem parseVal_int_pos (f : Nat) (hf : 0 < f) (i : Int) (R : List Nat)
    (hR : firstDigit R = false) :
    parseVal f (intToBytes i ++ R) = some (.num i, R) := by
  obtain ⟨f2, rfl⟩ : ∃ f2, f = f2 + 1 := ⟨f - 1, by omega⟩
  rcases intToBytes_head i with ⟨c, t, hct, hc⟩
  rw [hct, List.cons_append, parseVal_number_head f2 c (t ++ R) hc,
    ← List.cons_append, ← hct, parseNumber_intToBytes i R hR]

/-! ## Lemmas: parsing the canonical NetWork body -/

theorem parseMembers_cpu (f : Nat) (hf : 0 < f) (i : Int) (R : List Nat) :
    parseMembers (f + 1)
      (34 :: 99 :: 112 :: 117 :: 34 :: 58 :: (intToBytes i ++ 44 :: R))
      = (parseMembers f R).map
          (fun p => (("cpu", Json.num i) :: p.1, p.2)) := by
  have hv := parseVal_int_pos f hf i (44 :: R) rfl
  conv_lhs => whnf
  rw [hv]
  conv_lhs => whnf
  cases parseMembers f R <;> rfl

theorem parseMembers_mem (f : Nat) (hf : 0 < f) (i : Int) (R : List Nat) :
    parseMembers (f + 1)
      (34 :: 109 :: 101 :: 109 :: 34 :: 58 :: (intToBytes i ++ 44 :: R))
      = (parseMembers f R).map
          (fun p => (("mem", Json.num i) :: p.1, p.2)) := by
  have hv := parseVal_int_pos f hf i (44 :: R) rfl
  conv_lhs => whnf
  rw [hv]
  conv_lhs => whnf
  cases parseMembers f R <;> rfl

theorem parseMembers_up (f : Nat) (hf : 0 < f) (i : Int) (R : List Nat) :
    parseMembers (f + 1)
      (34 :: 117 :: 112 :: 34 :: 58 :: (intToBytes i ++ 44 :: R))
      = (parseMembers f R).map
          (fun p => (("up", Json.num i) :: p.1, p.2)) := by
  have hv := parseVal_int_pos f hf i (44 :: R) rfl
  conv_lhs => whnf
  rw [hv]
  conv_lhs => whnf
  cases parseMembers f R <;> rfl

theorem parseMembers_down (f : Nat) (hf : 0 < f) (i : Int) (R : List Nat) :
    parseMembers (f + 1)
      (34 :: 100 :: 111 :: 119 :: 110 :: 34 :: 58 :: (intToBytes i ++ 44 :: R))
      = (parseMembers f R).map
          (fun p => (("down", Json.num i) :: p.1, p.2)) := by
  have hv := parseVal_int_pos f hf i (44 :: R) rfl
  conv_lhs => whnf
  rw [hv]
  conv_lhs => whnf
  cases parseMembers f R <;> rfl

theorem parseMembers_load (f : Nat) (hf : 0 < f) (i : Int) (R : List Nat) :
    parseMembers (f + 1)
      (34 :: 108 :: 111 :: 97 :: 100 :: 34 :: 58 :: (intToBytes i ++ 125 :: R))
      = some ([("load", Json.num i)], R) := by
  have hv := parseVal_int_pos f hf i (125 :: R) rfl
  conv_lhs => whnf
  rw [hv]
  conv_lhs => whnf

theorem parseVal_encodeNetWork (g : Nat) (w : NetWork) :
    parseVal (g + 7) (encodeNetWork w) = some (netWorkJson w, []) := by
  rw [show g + 7 = (g + 6) + 1 by omega]
  simp only [encodeNetWork, List.cons_append, List.nil_append,
    List.append_assoc]
  conv_lhs => whnf
  rw [show g + 6 = (g + 5) + 1 by omega,
    parseMembers_cpu (g + 5) (by omega),
    show g + 5 = (g + 4) + 1 by omega,
    parseMembers_mem (g + 4) (by omega),
    show g + 4 = (g + 3) + 1 by omega,
    parseMembers_up (g + 3) (by omega),
    show g + 3 = (g + 2) + 1 by omega,
    parseMembers_down (g + 2) (by omega),
    show g + 2 = (g + 1) + 1 by omega,
    parseMembers_load (g + 1) (by omega)]
  rfl

theorem parseJson_encodeNetWork (w : NetWork) :
    parseJson (encodeNetWork w) = some (netWorkJson w) := by
  rw [parseJson, show (encodeNetWork w).length + 8
    = ((encodeNetWork w).length + 1) + 7 by omega, parseVal_encodeNetWork]
  rfl

theorem decodeNetWork_encodeNetWork (w : NetWork) :
    decodeNetWork (encodeNetWork w) = .ok w := by
  rw [decodeNetWork, parseJson_encodeNetWork]
  rfl

/-! ## Sanity checks: RFC 1321 test vectors for the MD5 embedding -/

set_option maxRecDepth 10000 in
theorem md5_rfc_vector_empty :
    MD5 "" = "d41d8cd98f00b204e9800998ecf8427e" := by decide

set_option maxRecDepth 10000 in
theorem md5_rfc_vector_abc :
    MD5 "abc" = "900150983cd24fb0d6963f7d28e17f72" := by decide

/-! ## Claim theorems -/

/-- C1: for every key and Unix timestamp, the request token `btAPI`
sends (absent a caller override of the reserved keys) equals
`MD5(decimal_string(T) ++ MD5(K))`, where `MD5` yields the 32-character
lowercase hexadecimal digest; the signer is a pure function of `(T, K)`,
so equal time and key give an identical token. -/
theorem token_signing_spec (c : Client) (data : Form) (endpoint : String)
    (T : Int) (s : String) (T1 : Int) (K1 : String)
    (htok : ∀ p ∈ data, p.1 ≠ "request_token")
    (htime : ∀ p ∈ data, p.1 ≠ "request_time")
    (hT : T1 = T) (hK : K1 = c.BTKey) :
    getVal (btAPIRequest c data endpoint T).form "request_token"
        = some [MD5 (toString T ++ MD5 c.BTKey)]
    ∧ getVal (btAPIRequest c data endpoint T).form "request_time"
        = some [toString T]
    ∧ requestToken T1 K1 = requestToken T c.BTKey
    ∧ (MD5 s).length = 32
    ∧ ((MD5 s).data).all isHexChar = true := by
  refine ⟨?_, ?_, by rw [hT, hK], MD5_length s, MD5_all_hex s⟩
  · show getVal (buildBody c.BTKey T data) "request_token" = _
    rw [buildBody, getVal_mergeData_not_mem data _ _ htok,
      getVal_signingForm_token]
    rfl
  · show getVal (buildBody c.BTKey T data) "request_time" = _
    rw [buildBody, getVal_mergeData_not_mem data _ _ htime,
      getVal_signingForm_time]

theorem token_signing_spec_witness :
    getVal (btAPIRequest (NewClient "http://10.0.0.14:8888" "secret") []
        "/system?action=GetNetWork" 1700000000).form "request_token"
      = some [MD5 (toString (1700000000 : Int) ++ MD5 "secret")]
    ∧ (MD5 "secret").length = 32 := by
  have h := token_signing_spec (NewClient "http://10.0.0.14:8888" "secret")
    [] "/system?action=GetNetWork" 1700000000 "secret" 1700000000 "secret"
    (by simp) (by simp) rfl rfl
  exact ⟨h.1, h.2.2.2.1⟩

/-- C2 (amended): after a call that receives a response, the held
cookie set is replaced by exactly the cookies of that response (even by
an empty set) when the status is below 400; on an HTTP-status error
(status at least 400) `btAPI` returns before the cookie save, so the
client, cookies included, is left unchanged. -/
theorem cookie_update_spec (c : Client) (tr : Transport) (T : Int)
    (data : Form) (endpoint : String) (resp : Response)
    (h : tr (btAPIRequest c data endpoint T) = .ok resp) :
    (resp.statusCode < 400 →
      (btAPI c tr T data endpoint).2.cookies = resp.cookies)
    ∧ (400 ≤ resp.statusCode →
      (btAPI c tr T data endpoint).2 = c) := by
  constructor
  · intro hlt
    simp only [btAPI, h]
    rw [if_neg (by omega)]
    cases hb : resp.bodyRead <;> simp [hb]
  · intro hge
    simp only [btAPI, h]
    rw [if_pos (by omega)]

theorem cookie_update_spec_witness :
    (btAPI { BTAddress := "http://p", BTKey := "k", cookies := [⟨"a", "1"⟩] }
        (fun _ => .ok ⟨200, "200 OK", [⟨"b", "2"⟩], .ok []⟩)
        1700000000 [] "/e").2.cookies = [⟨"b", "2"⟩]
    ∧ (btAPI { BTAddress := "http://p", BTKey := "k", cookies := [⟨"a", "1"⟩] }
        (fun _ => .ok ⟨500, "500 Internal Server Error", [⟨"b", "2"⟩], .ok []⟩)
        1700000000 [] "/e").2
      = { BTAddress := "http://p", BTKey := "k", cookies := [⟨"a", "1"⟩] } := by
  constructor
  · exact (cookie_update_spec _ _ 1700000000 [] "/e"
      ⟨200, "200 OK", [⟨"b", "2"⟩], .ok []⟩ rfl).1 (by norm_num)
  · exact (cookie_update_spec _ _ 1700000000 [] "/e"
      ⟨500, "500 Internal Server Error", [⟨"b", "2"⟩], .ok []⟩ rfl).2
      (by norm_num)

/-- C2 counterexample: a client seeded with cookie set A receives a
status-500 response carrying cookie set B; the claim requires the held
set to become B, but the code keeps A. -/
theorem cookie_update_claim_cex :
    (btAPI { BTAddress := "http://p", BTKey := "k", cookies := [⟨"a", "1"⟩] }
        (fun _ => .ok ⟨500, "500 Internal Server Error", [⟨"b", "2"⟩], .ok []⟩)
        1700000000 [] "/e").2.cookies = [⟨"a", "1"⟩]
    ∧ ([⟨"a", "1"⟩] : List Cookie) ≠ [⟨"b", "2"⟩] :=
  ⟨rfl, by decide⟩

/-- C3 (amended): on an HTTP status of 400 or more (and likewise on a
transport failure) `btAPI` returns a nil body with its error, so the
best-effort decode of `DeleteSite` always decodes the empty byte
sequence and always fails: the response body, well-formed or not, never
reaches the decoder, and the operation returns the zero `RespMSG` with
the decode error for the empty input. -/
theorem best_effort_decode_spec (c : Client) (tr : Transport) (T : Int)
    (params : ReqDeleteSite) (resp : Response) (e : String) :
    (tr (btAPIRequest c (deleteSiteData params)
        "/site?action=DeleteSite" T) = .ok resp →
      400 ≤ resp.statusCode →
      DeleteSite c tr T params = ((zeroRespMSG, some jsonSyntaxErr), c))
    ∧ (tr (btAPIRequest c (deleteSiteData params)
        "/site?action=DeleteSite" T) = .error e →
      DeleteSite c tr T params = ((zeroRespMSG, some jsonSyntaxErr), c)) := by
  constructor
  · intro h hge
    simp only [DeleteSite, btAPI, h]
    rw [if_pos (by omega)]
    rfl
  · intro h
    simp only [DeleteSite, btAPI, h]
    rfl

theorem best_effort_decode_spec_witness :
    DeleteSite { BTAddress := "http://p", BTKey := "k", cookies := [] }
        (fun _ => .ok ⟨500, "500 Internal Server Error", [], .ok bodyStatusOk⟩)
        1700000000 ⟨1, "site", false, false, false⟩
      = ((zeroRespMSG, some jsonSyntaxErr),
         { BTAddress := "http://p", BTKey := "k", cookies := [] }) :=
  (best_effort_decode_spec _ _ 1700000000 ⟨1, "site", false, false, false⟩
    _ "").1 rfl (by norm_num)

/-- C3 counterexample: a status-500 response carries a well-formed
`RespMSG` body (status true, message ok), yet `DeleteSite` returns the
zero value with a decode error, because the executor discarded the body;
the second conjunct shows the body itself decodes fine. -/
theorem best_effort_decode_claim_cex :
    DeleteSite { BTAddress := "http://p", BTKey := "k", cookies := [] }
        (fun _ => .ok ⟨500, "500 Internal Server Error", [], .ok bodyStatusOk⟩)
        1700000000 ⟨1, "site", false, false, false⟩
      = ((zeroRespMSG, some jsonSyntaxErr),
         { BTAddress := "http://p", BTKey := "k", cookies := [] })
    ∧ decodeRespMSG bodyStatusOk = .ok ⟨true, "ok"⟩ :=
  ⟨rfl, rfl⟩

/-- C4: the claim says a transport error is propagated to the caller
as-is, in particular by `GetLimitNet`; the code instead builds a fresh
error from the nil body (`errors.New(string(resp))`), so `GetLimitNet`
always returns an error with the empty message, losing the transport
error, while a structured-decode operation such as `GetNetWork` does
return the executor error unchanged. -/
theorem transport_error_replaced_in_getLimitNet (c : Client)
    (tr : Transport) (T : Int) (id : Int) (e : String)
    (h1 : tr (btAPIRequest c [("id", [toString id])]
      "/site?action=GetLimitNet" T) = .error e)
    (h2 : tr (btAPIRequest c [] "/system?action=GetNetWork" T) = .error e) :
    GetLimitNet c tr T id = ((zeroRespLimitNet, some ""), c)
    ∧ GetNetWork c tr T = ((zeroNetWork, some e), c) := by
  constructor
  · simp only [GetLimitNet, btAPI, h1]
    rfl
  · simp only [GetNetWork, btAPI, h2]

theorem transport_error_replaced_in_getLimitNet_witness :
    GetLimitNet { BTAddress := "http://p", BTKey := "k", cookies := [] }
        (fun _ => .error "dial tcp 10.0.0.14:8888: connect: connection refused")
        1700000000 5
      = ((zeroRespLimitNet, some ""),
         { BTAddress := "http://p", BTKey := "k", cookies := [] })
    ∧ ("" : String) ≠ "dial tcp 10.0.0.14:8888: connect: connection refused" :=
  ⟨(transport_error_replaced_in_getLimitNet _ _ 1700000000 5
      "dial tcp 10.0.0.14:8888: connect: connection refused" rfl rfl).1,
   by decide⟩

/-- C5: a call that fails at the transport layer (no response) returns
the transport error and leaves the client, held cookies included,
exactly as it was before the call. -/
theorem cookie_preserved_on_transport_error (c : Client) (tr : Transport)
    (T : Int) (data : Form) (endpoint : String) (e : String)
    (h : tr (btAPIRequest c data endpoint T) = .error e) :
    btAPI c tr T data endpoint = (.error e, c) := by
  simp only [btAPI, h]

theorem cookie_preserved_on_transport_error_witness :
    btAPI { BTAddress := "http://p", BTKey := "k", cookies := [⟨"a", "1"⟩] }
        (fun _ => .error "dial tcp: connection refused") 1700000000 [] "/e"
      = (.error "dial tcp: connection refused",
         { BTAddress := "http://p", BTKey := "k", cookies := [⟨"a", "1"⟩] }) :=
  cookie_preserved_on_transport_error _ _ 1700000000 [] "/e" _ rfl

/-- C6: whenever the held cookie set is non-empty at send time, the
outbound request carries exactly the held cookies in its jar; this is
per-call, so it holds for every request issued while the set is held. -/
theorem held_cookies_attached (c : Client) (data : Form)
    (endpoint : String) (T : Int) (h : c.cookies ≠ []) :
    (btAPIRequest c data endpoint T).jarCookies = c.cookies := by
  simp [btAPIRequest, h]

theorem held_cookies_attached_witness :
    (btAPIRequest ⟨"http://p", "k", [⟨"a", "1"⟩]⟩ [] "/e" 1700000000).jarCookies
      = [⟨"a", "1"⟩] :=
  held_cookies_attached _ [] "/e" 1700000000 (by decide)

/-- C7 (amended): receiving a response, `btAPI` returns an error
carrying the status text and no body when the status is 400 or more;
when the status is below 400 and the body is read successfully it
returns the body verbatim; a failure while reading the body of a
below-400 response is returned as an error as well. -/
theorem status_classification_spec (c : Client) (tr : Transport) (T : Int)
    (data : Form) (endpoint : String) (resp : Response) (bs : List Nat)
    (e : String)
    (h : tr (btAPIRequest c data endpoint T) = .ok resp) :
    (400 ≤ resp.statusCode →
      (btAPI c tr T data endpoint).1 = .error resp.status)
    ∧ (resp.statusCode < 400 → resp.bodyRead = .ok bs →
      (btAPI c tr T data endpoint).1 = .ok bs)
    ∧ (resp.statusCode < 400 → resp.bodyRead = .err e →
      (btAPI c tr T data endpoint).1 = .error e) := by
  refine ⟨fun hge => ?_, fun hlt hb => ?_, fun hlt hb => ?_⟩
  · simp only [btAPI, h]
    rw [if_pos (by omega)]
  · simp only [btAPI, h, hb]
    rw [if_neg (by omega)]
  · simp only [btAPI, h, hb]
    rw [if_neg (by omega)]

theorem status_classification_spec_witness :
    (btAPI { BTAddress := "http://p", BTKey := "k", cookies := [] }
        (fun _ => .ok ⟨502, "502 Bad Gateway", [], .ok [111, 107]⟩)
        1700000000 [] "/e").1 = .error "502 Bad Gateway"
    ∧ (btAPI { BTAddress := "http://p", BTKey := "k", cookies := [] }
        (fun _ => .ok ⟨200, "200 OK", [], .ok [111, 107]⟩)
        1700000000 [] "/e").1 = .ok [111, 107] := by
  constructor
  · exact (status_classification_spec _ _ 1700000000 [] "/e"
      ⟨502, "502 Bad Gateway", [], .ok [111, 107]⟩ [111, 107] "" rfl).1
      (by norm_num)
  · exact (status_classification_spec _ _ 1700000000 [] "/e"
      ⟨200, "200 OK", [], .ok [111, 107]⟩ [111, 107] "" rfl).2.1
      (by norm_num) rfl

/-- C7 counterexample: a response with status 200 whose body read
fails makes the call return an error, where the claim requires every
below-400 response to yield success with the body bytes. -/
theorem status_classification_claim_cex :
    (btAPI { BTAddress := "http://p", BTKey := "k", cookies := [] }
        (fun _ => .ok ⟨200, "200 OK", [], .err "read: connection reset"⟩)
        1700000000 [] "/e").1 = .error "read: connection reset"
    ∧ isOkB (btAPI { BTAddress := "http://p", BTKey := "k", cookies := [] }
        (fun _ => .ok ⟨200, "200 OK", [], .err "read: connection reset"⟩)
        1700000000 [] "/e").1 = false :=
  ⟨rfl, rfl⟩

/-- C8: the structured decode of `GetNetWork`: a transport-successful
response whose body is the canonical JSON rendering of a `NetWork`
value decodes back to exactly that value, every field reproduced; a
body the decoder rejects yields the decode error together with the zero
`NetWork`. -/
theorem structured_decode_spec (c : Client) (tr : Transport) (T : Int)
    (resp : Response) (w : NetWork) (bs : List Nat) (e : String)
    (h : tr (btAPIRequest c [] "/system?action=GetNetWork" T) = .ok resp)
    (hlt : resp.statusCode < 400) (hb : resp.bodyRead = .ok bs) :
    (bs = encodeNetWork w →
      GetNetWork c tr T = ((w, none), { c with cookies := resp.cookies }))
    ∧ (decodeNetWork bs = .error e →
      GetNetWork c tr T
        = ((zeroNetWork, some e), { c with cookies := resp.cookies })) := by
  have hbt : btAPI c tr T [] "/system?action=GetNetWork"
      = (.ok bs, { c with cookies := resp.cookies }) := by
    simp only [btAPI, h, hb]
    rw [if_neg (by omega)]
  constructor
  · intro hbs
    subst hbs
    simp only [GetNetWork, hbt, decodeNetWork_encodeNetWork]
  · intro hd
    simp only [GetNetWork, hbt, hd]

theorem structured_decode_spec_witness :
    GetNetWork { BTAddress := "http://p", BTKey := "k", cookies := [] }
        (fun _ => .ok ⟨200, "200 OK", [], .ok (encodeNetWork ⟨12, -3, 456, 0, 7⟩)⟩)
        1700000000
      = (((⟨12, -3, 456, 0, 7⟩ : NetWork), none),
         { BTAddress := "http://p", BTKey := "k", cookies := [] })
    ∧ GetNetWork { BTAddress := "http://p", BTKey := "k", cookies := [] }
        (fun _ => .ok ⟨200, "200 OK", [], .ok [120]⟩)
        1700000000
      = ((zeroNetWork, some jsonSyntaxErr),
         { BTAddress := "http://p", BTKey := "k", cookies := [] }) := by
  constructor
  · exact (structured_decode_spec _ _ 1700000000
      ⟨200, "200 OK", [], .ok (encodeNetWork ⟨12, -3, 456, 0, 7⟩)⟩
      ⟨12, -3, 456, 0, 7⟩ (encodeNetWork ⟨12, -3, 456, 0, 7⟩) "" rfl
      (by norm_num) rfl).1 rfl
  · exact (structured_decode_spec _ _ 1700000000 ⟨200, "200 OK", [], .ok [120]⟩
      ⟨0, 0, 0, 0, 0⟩ [120] jsonSyntaxErr rfl (by norm_num) rfl).2 rfl

/-- C9: `GetTaskCount` returns the parsed integer for a decimal body
(body bytes of the digit 3 give 3), and returns 0 — its signature has
no error at all — on a transport failure, an HTTP-status error, or a
body `strconv.Atoi` rejects (non-numeric or empty). -/
theorem task_count_spec (c : Client) (T : Int) (e status0 : String)
    (sc : Nat) (cookies0 : List Cookie) (bs : List Nat) (n : Int) :
    (GetTaskCount c (fun _ => .error e) T = (0, c))
    ∧ (400 ≤ sc →
        GetTaskCount c (fun _ => .ok ⟨sc, status0, cookies0, .ok bs⟩) T
          = (0, c))
    ∧ (sc < 400 →
        GetTaskCount c
          (fun _ => .ok ⟨sc, status0, cookies0, .ok (strBytes "3")⟩) T
          = (3, { c with cookies := cookies0 }))
    ∧ (sc < 400 → goAtoi bs = none →
        GetTaskCount c (fun _ => .ok ⟨sc, status0, cookies0, .ok bs⟩) T
          = (0, { c with cookies := cookies0 }))
    ∧ (sc < 400 → goAtoi bs = some n →
        GetTaskCount c (fun _ => .ok ⟨sc, status0, cookies0, .ok bs⟩) T
          = (n, { c with cookies := cookies0 })) := by
  refine ⟨rfl, fun hge => ?_, fun hlt => ?_, fun hlt ha => ?_, fun hlt ha => ?_⟩
  · simp only [GetTaskCount, btAPI]
    rw [if_pos (by omega)]
  · simp only [GetTaskCount, btAPI]
    rw [if_neg (by omega)]
    rfl
  · simp only [GetTaskCount, btAPI]
    rw [if_neg (by omega)]
    simp only [ha]
  · simp only [GetTaskCount, btAPI]
    rw [if_neg (by omega)]
    simp only [ha]

theorem task_count_spec_witness :
    GetTaskCount { BTAddress := "http://p", BTKey := "k", cookies := [] }
        (fun _ => .ok ⟨200, "200 OK", [], .ok (strBytes "3")⟩) 1700000000
      = (3, { BTAddress := "http://p", BTKey := "k", cookies := [] })
    ∧ GetTaskCount { BTAddress := "http://p", BTKey := "k", cookies := [] }
        (fun _ => .ok ⟨200, "200 OK", [], .ok []⟩) 1700000000
      = (0, { BTAddress := "http://p", BTKey := "k", cookies := [] })
    ∧ GetTaskCount { BTAddress := "http://p", BTKey := "k", cookies := [] }
        (fun _ => .error "dial tcp: timeout") 1700000000
      = (0, { BTAddress := "http://p", BTKey := "k", cookies := [] }) := by
  refine ⟨?_, ?_, ?_⟩
  · exact (task_count_spec _ 1700000000 "" "200 OK" 200 [] [] 0).2.2.1
      (by norm_num)
  · exact (task_count_spec _ 1700000000 "" "200 OK" 200 [] [] 0).2.2.2.1
      (by norm_num) rfl
  · exact (task_count_spec _ 1700000000 "dial tcp: timeout" "" 0 [] [] 0).1

/-- C10: a caller parameter map holding the reserved key request_token
or request_time (reachable through the deprecated `Raw` passthrough,
which is `btAPI` unchanged) wins over the freshly computed signing
value, because the caller entries are written into the form after the
signing fields (last-write-wins map semantics). -/
theorem reserved_key_override_spec (c : Client) (data : Form)
    (endpoint : String) (T : Int) (v : List String)
    (hnd : (data.map Prod.fst).Nodup) :
    (("request_token", v) ∈ data →
      getVal (btAPIRequest c data endpoint T).form "request_token" = some v)
    ∧ (("request_time", v) ∈ data →
      getVal (btAPIRequest c data endpoint T).form "request_time" = some v)
    ∧ (∀ tr, Raw c tr T data endpoint = btAPI c tr T data endpoint) := by
  refine ⟨fun hm => ?_, fun hm => ?_, fun _ => rfl⟩
  · show getVal (buildBody c.BTKey T data) "request_token" = some v
    exact getVal_mergeData_mem data _ _ v hnd hm
  · show getVal (buildBody c.BTKey T data) "request_time" = some v
    exact getVal_mergeData_mem data _ _ v hnd hm

theorem reserved_key_override_spec_witness :
    getVal (btAPIRequest { BTAddress := "http://p", BTKey := "k", cookies := [] }
        [("request_token", ["caller-token"])] "/e" 1700000000).form
        "request_token" = some ["caller-token"]
    ∧ getVal (btAPIRequest { BTAddress := "http://p", BTKey := "k", cookies := [] }
        [("request_time", ["caller-time"])] "/e" 1700000000).form
        "request_time" = some ["caller-time"] := by
  constructor
  · exact (reserved_key_override_spec _ [("request_token", ["caller-token"])]
      "/e" 1700000000 ["caller-token"] (by simp)).1 (by simp)
  · exact (reserved_key_override_spec _ [("request_time", ["caller-time"])]
      "/e" 1700000000 ["caller-time"] (by simp)).2.1 (by simp)

end BT
